import Mathlib

/-!
Shallow embedding of the booking-platform sources: the client booking
modal (`BookingModal.handleSubmit`, `calculateEndTime`), the owner booking
dashboard (`updateBookingStatus`, `statusCounts`, the `BookingCard`
status buttons), the schedule manager (`handleScheduleUpdate`,
`ExceptionForm.handleSubmit`), the `search_companies` SQL function, and
the availability rules of the specification.  Machine times are modelled
as naive wall-clock minutes; database rows are Lean structures; the
remote store is a list of rows threaded explicitly.
-/

namespace BookingPlatform

/-! ### Wall-clock time strings

`calculateEndTime` in the booking modal works on `"HH:MM"` strings via
`startTime.split(':').map(Number)`.  We model the split and the numeric
parse at the character level. -/

/-- Model of JavaScript `string.split(sep)` on a character list. -/
def splitCh (sep : Char) : List Char → List (List Char)
  | [] => [[]]
  | c :: cs =>
    if c = sep then
      [] :: splitCh sep cs
    else
      match splitCh sep cs with
      | [] => [[c]]
      | g :: gs => (c :: g) :: gs

/-- Numeric value of a decimal digit character (JS `Number` on digit strings). -/
def digitVal (c : Char) : Nat := c.toNat - 48

/-- Model of JS `Number` on a string of decimal digits (`Number("") = 0`). -/
def strToNat (cs : List Char) : Nat := cs.foldl (fun a c => a * 10 + digitVal c) 0

/-- Model of JS `String(n).padStart(2, '0')`. -/
def pad2 (n : Nat) : String :=
  if (Nat.repr n).length < 2 then "0" ++ Nat.repr n else Nat.repr n

/-- Model of `const [hours, minutes] = startTime.split(':').map(Number)`. -/
def parsePair (s : String) : Nat × Nat :=
  let parts := (splitCh ':' s.toList).map strToNat
  (parts.headD 0, (parts.drop 1).headD 0)

/-- Embedding of `calculateEndTime` from the booking modal: add the duration to the
start time, wrap hours with `% 24`, format back as `"HH:MM"`. -/
def calculateEndTime (startTime : String) (durationMinutes : Nat) : String :=
  let hours := (parsePair startTime).1
  let minutes := (parsePair startTime).2
  let totalMinutes := hours * 60 + minutes + durationMinutes
  let endHours := totalMinutes / 60 % 24
  let endMinutes := totalMinutes % 60
  pad2 endHours ++ ":" ++ pad2 endMinutes

/-- Total minutes since midnight encoded by an `"HH:MM"` string. -/
def timeToMinutes (s : String) : Nat :=
  (parsePair s).1 * 60 + (parsePair s).2

/-- Format hours and minutes as the `"HH:MM"` string a time input produces. -/
def formatTime (h m : Nat) : String := pad2 h ++ ":" ++ pad2 m

/-! ### Booking data model

Mirrors the `bookings` table of the migration and the record built by
`BookingModal.handleSubmit`.  Identifiers, dates and timestamps are
abstracted as `Nat`; clock times stay `"HH:MM"` strings as stored. -/

inductive BookingStatus where
  | pending
  | confirmed
  | cancelled
  | completed
deriving DecidableEq, Repr

structure Booking where
  id : Nat
  company_id : Nat
  service_id : Nat
  client_user_id : Option Nat
  client_name : String
  client_email : String
  client_phone : String
  booking_date : Nat
  start_time : String
  end_time : String
  status : BookingStatus
  notes : String
  created_at : Nat
  updated_at : Nat
deriving DecidableEq, Repr

/-- The form state of `BookingModal` (date, time, client contact, notes). -/
structure BookingForm where
  date : Nat
  time : String
  client_name : String
  client_email : String
  client_phone : String
  notes : String
deriving DecidableEq, Repr

/-- The row `BookingModal.handleSubmit` inserts: end time computed by
`calculateEndTime`, status hard-coded to `'pending'`; `nid`/`ts` model the
store-generated id and timestamps. -/
def mkBookingInsert (companyId serviceId durationMinutes : Nat)
    (clientUserId : Option Nat) (form : BookingForm) (nid ts : Nat) : Booking :=
  { id := nid
    company_id := companyId
    service_id := serviceId
    client_user_id := clientUserId
    client_name := form.client_name
    client_email := form.client_email
    client_phone := form.client_phone
    booking_date := form.date
    start_time := form.time
    end_time := calculateEndTime form.time durationMinutes
    status := BookingStatus.pending
    notes := form.notes
    created_at := ts
    updated_at := ts }

/-- Embedding of `BookingModal.handleSubmit`: the insert is unconditional — no schedule or
conflict check precedes it (the insert policy on `bookings` is
`WITH CHECK (true)` and the status value satisfies the check constraint), so
the new row is always appended to the store. -/
def bookingModalSubmit (store : List Booking) (companyId serviceId durationMinutes : Nat)
    (clientUserId : Option Nat) (form : BookingForm) (nid ts : Nat) : List Booking :=
  store ++ [mkBookingInsert companyId serviceId durationMinutes clientUserId form nid ts]

/-- Modelled from the spec: the half-open interval intersection test
(`a.start < b.end AND b.start < a.end`, spec §4.1 Constraint 2 and glossary).
No implementation of it exists in the repository. -/
def intervalsOverlap (aStart aEnd bStart bEnd : Nat) : Bool :=
  decide (aStart < bEnd) && decide (bStart < aEnd)

/-- Modelled from the spec: existing bookings with status pending or confirmed
block a slot; cancelled/completed do not (spec §4.1 Constraint 2). -/
def isBlockingStatus (s : BookingStatus) : Bool :=
  s == BookingStatus.pending || s == BookingStatus.confirmed

/-- Modelled from the spec: Constraint 2 (non-overlap) of `isLegalBooking` —
the proposed interval must not intersect any existing booking of the same
company and date whose status blocks.  The repository contains no
implementation of this check; it exists only in the specification. -/
def nonOverlapOk (companyId date pStart pEnd : Nat) (existing : List Booking) : Bool :=
  existing.all fun b =>
    !(b.company_id == companyId && b.booking_date == date &&
      isBlockingStatus b.status &&
      intervalsOverlap pStart pEnd (timeToMinutes b.start_time) (timeToMinutes b.end_time))

/-- An existing confirmed booking `[10:00,11:00)` on company 1, date 100. -/
def bookingTenToEleven : Booking :=
  { id := 1, company_id := 1, service_id := 1, client_user_id := none
    client_name := "Ann", client_email := "ann@example.com", client_phone := ""
    booking_date := 100, start_time := "10:00", end_time := "11:00"
    status := BookingStatus.confirmed, notes := "", created_at := 0, updated_at := 0 }

/-- The same interval and company/date, but cancelled. -/
def bookingTenToElevenCancelled : Booking :=
  { bookingTenToEleven with id := 2, status := BookingStatus.cancelled }

/-- A booking-modal form proposing `[10:30,11:30)` on the same company/date. -/
def proposalHalfPastTen : BookingForm :=
  { date := 100, time := "10:30", client_name := "Bob"
    client_email := "bob@example.com", client_phone := "", notes := "" }

/-- A first booking request for `[10:00,11:00)` on company 1, date 100. -/
def requestTenOclock : BookingForm :=
  { date := 100, time := "10:00", client_name := "Cara"
    client_email := "cara@example.com", client_phone := "", notes := "" }

/-- A second, overlapping request for `[10:30,11:30)` on the same company/date. -/
def requestHalfPastTen : BookingForm :=
  { date := 100, time := "10:30", client_name := "Dan"
    client_email := "dan@example.com", client_phone := "", notes := "" }

/-! ### Owner booking dashboard (`BookingsManagement.tsx`)

`updateBookingStatus` patches `{status, updated_at}` on the row with the
given id; `statusCounts` tallies the loaded list; `BookingCard` renders the
status buttons, gating `confirmed → completed` on the booking date being in
the past. -/

/-- Embedding of `updateBookingStatus(id, status)`: update `{status, updated_at}` on every
row whose `id` matches (`.eq('id', id)`); `now` models the fresh timestamp. -/
def updateBookingStatus (bookings : List Booking) (id : Nat)
    (status : BookingStatus) (now : Nat) : List Booking :=
  bookings.map fun b =>
    if b.id == id then { b with status := status, updated_at := now } else b

/-- The five counters computed over the loaded booking list. -/
structure StatusCounts where
  all : Nat
  pending : Nat
  confirmed : Nat
  cancelled : Nat
  completed : Nat
deriving DecidableEq, Repr

/-- Embedding of `statusCounts` from `BookingsManagement`. -/
def statusCounts (bookings : List Booking) : StatusCounts :=
  { all := bookings.length
    pending := (bookings.filter fun b => b.status == BookingStatus.pending).length
    confirmed := (bookings.filter fun b => b.status == BookingStatus.confirmed).length
    cancelled := (bookings.filter fun b => b.status == BookingStatus.cancelled).length
    completed := (bookings.filter fun b => b.status == BookingStatus.completed).length }

/-- The status updates `BookingCard` offers for a booking: none for cancelled
or completed; Confirm/Decline for pending; Mark-Completed (only when the date
is past) and Cancel for confirmed. -/
def offeredStatusUpdates (status : BookingStatus) (isPast : Bool) : List BookingStatus :=
  match status with
  | BookingStatus.pending => [BookingStatus.confirmed, BookingStatus.cancelled]
  | BookingStatus.confirmed =>
      if isPast then [BookingStatus.completed, BookingStatus.cancelled]
      else [BookingStatus.cancelled]
  | BookingStatus.cancelled => []
  | BookingStatus.completed => []

/-- A status change is reachable through the UI when some past/future context
offers it. -/
def statusStep (s t : BookingStatus) : Bool :=
  (offeredStatusUpdates s true).contains t || (offeredStatusUpdates s false).contains t

/-- Run a sequence of attempted owner updates: each `(target, isPast)` pair is
applied only when `BookingCard` offers that button in that context. -/
def runOfferedUpdates : BookingStatus → List (BookingStatus × Bool) → BookingStatus
  | s, [] => s
  | s, (t, p) :: rest =>
    if (offeredStatusUpdates s p).contains t then runOfferedUpdates t rest
    else runOfferedUpdates s rest

/-! ### Schedule manager (`ScheduleManagement`, part_004) and availability

`handleScheduleUpdate` edits the weekly template; `ExceptionForm.handleSubmit`
inserts per-date overrides; `openIntervalsFor` is the availability rule of
spec §4.1 (no implementation of it exists in the repository). -/

/-- A row of the `schedules` table (one company's weekly rule for one day). -/
structure ScheduleRow where
  id : Nat
  company_id : Nat
  day_of_week : Nat
  start_time : String
  end_time : String
  is_active : Bool
deriving DecidableEq, Repr

/-- A row of the `schedule_exceptions` table; `start_time`/`end_time` are
nullable columns. -/
structure ScheduleExceptionRow where
  id : Nat
  company_id : Nat
  date : Nat
  is_closed : Bool
  start_time : Option String
  end_time : Option String
  reason : String
deriving DecidableEq, Repr

/-- Embedding of `handleScheduleUpdate(dayOfWeek, startTime, endTime, isActive)`: look for
an existing rule for the day in the company's loaded schedules; update that
row in place (`.eq('id', existing.id)`) when found, insert a new row
otherwise.  `nid` models the store-generated id of an inserted row. -/
def handleScheduleUpdate (schedules : List ScheduleRow) (companyId nid : Nat)
    (dayOfWeek : Nat) (startTime endTime : String) (isActive : Bool) : List ScheduleRow :=
  match schedules.find? (fun s => s.day_of_week == dayOfWeek) with
  | some existing =>
      schedules.map fun s =>
        if s.id == existing.id then
          { s with start_time := startTime, end_time := endTime, is_active := isActive }
        else s
  | none =>
      schedules ++ [{ id := nid, company_id := companyId, day_of_week := dayOfWeek
                      start_time := startTime, end_time := endTime, is_active := isActive }]

/-- Embedding of `ExceptionForm.handleSubmit`: the inserted exception row — times are null
exactly when the date is marked closed. -/
def mkExceptionInsert (companyId nid date : Nat) (isClosed : Bool)
    (startTime endTime reason : String) : ScheduleExceptionRow :=
  { id := nid, company_id := companyId, date := date, is_closed := isClosed
    start_time := if isClosed then none else some startTime
    end_time := if isClosed then none else some endTime
    reason := reason }

/-- At most one weekly rule per (company, day_of_week) — the `schedules`
table's UNIQUE(company_id, day_of_week) invariant. -/
def atMostOneRulePerDay (rows : List ScheduleRow) : Prop :=
  rows.Pairwise fun a b => ¬(a.company_id = b.company_id ∧ a.day_of_week = b.day_of_week)

/-- Embedding of `dayOfWeek(D)` for dates abstracted as day numbers. -/
def dayOfWeekOf (date : Nat) : Nat := date % 7

/-- Modelled from the spec: `openIntervalsFor(company, date)` (spec §4.1) —
the repository contains no implementation of this operation.  An exception
for the date fully overrides the weekly rule: closed → no open interval,
otherwise the exception's own interval; with no exception, the active weekly
rule for `dayOfWeek(date)` applies. -/
def openIntervalsFor (rules : List ScheduleRow) (exceptions : List ScheduleExceptionRow)
    (companyId date : Nat) : List (String × String) :=
  match exceptions.find? (fun e => e.company_id == companyId && e.date == date) with
  | some e =>
      if e.is_closed then []
      else [(e.start_time.getD "", e.end_time.getD "")]
  | none =>
      match rules.find? (fun r =>
          r.company_id == companyId && r.day_of_week == dayOfWeekOf date) with
      | some r => if r.is_active then [(r.start_time, r.end_time)] else []
      | none => []

/-! ### Company search (`search_companies` SQL function)

`ILIKE '%' || q || '%'` is a case-insensitive substring test, `&&` on text
arrays is non-empty intersection, and the result is ordered by
`created_at DESC`. -/

/-- A row of the `companies` table. -/
structure Company where
  id : Nat
  owner_id : Nat
  name : String
  description : String
  contact_email : String
  contact_phone : String
  logo_url : String
  address : String
  city : String
  category : String
  tags : List String
  is_active : Bool
  created_at : Nat
  updated_at : Nat
deriving DecidableEq, Repr

/-- Case-folded character list of a string. -/
def lowerChars (s : String) : List Char := s.toList.map Char.toLower

/-- Test for `hay ILIKE '%' || pat || '%'`: case-insensitive substring test. -/
def ciContains (hay pat : String) : Bool :=
  decide ( List.IsInfix (lowerChars pat) (lowerChars hay))

/-- The WHERE clause of `search_companies`. -/
def matchesSearch (searchQuery : String) (filterTags : List String)
    (filterCity : String) (c : Company) : Bool :=
  c.is_active &&
  (searchQuery == "" || ciContains c.name searchQuery ||
    ciContains c.description searchQuery || ciContains c.category searchQuery ||
    c.tags.any fun tag => ciContains tag searchQuery) &&
  (filterTags.length == 0 || c.tags.any fun tag => filterTags.contains tag) &&
  (filterCity == "" || ciContains c.city filterCity)

/-- Embedding of `search_companies(search_query, filter_tags, filter_city)` over the table
contents: filter by the WHERE clause, order by `created_at DESC`. -/
def searchCompanies (companies : List Company) (searchQuery : String)
    (filterTags : List String) (filterCity : String) : List Company :=
  (companies.filter (matchesSearch searchQuery filterTags filterCity)).mergeSort
    fun a b => decide (b.created_at ≤ a.created_at)

/-! ### Theorems -/

/-! Parse/format round-trip lemmas. -/

theorem splitCh_append (sep : Char) (l1 l2 : List Char)
    (h1 : sep ∉ l1) : splitCh sep (l1 ++ sep :: l2) = l1 :: splitCh sep l2 := by
  induction l1 with
  | nil => simp [splitCh]
  | cons c cs ih =>
    have hc : c ≠ sep := fun h => h1 (h ▸ List.mem_cons_self c cs)
    have hcs : sep ∉ cs := fun h => h1 (List.mem_cons_of_mem c h)
    simp only [List.cons_append, splitCh, if_neg hc]
    rw [show cs.append (sep :: l2) = cs ++ sep :: l2 from rfl, ih hcs]

theorem pad2_no_colon_strToNat : ∀ n, n < 100 →
    ':' ∉ (pad2 n).toList ∧ strToNat (pad2 n).toList = n := by decide

theorem splitCh_no_sep (sep : Char) (l : List Char) (h : sep ∉ l) :
    splitCh sep l = [l] := by
  induction l with
  | nil => rfl
  | cons c cs ih =>
    have hc : c ≠ sep := fun heq => h (heq ▸ List.mem_cons_self c cs)
    have hcs : sep ∉ cs := fun hmem => h (List.mem_cons_of_mem c hmem)
    simp [splitCh, hc, ih hcs]

theorem parsePair_formatTime (h m : Nat) (hh : h < 100) (hm : m < 100) :
    parsePair (formatTime h m) = (h, m) := by
  have hpadh := pad2_no_colon_strToNat h hh
  have hpadm := pad2_no_colon_strToNat m hm
  have hdata : (formatTime h m).toList = (pad2 h).toList ++ ':' :: (pad2 m).toList := by
    simp [formatTime, String.toList, String.data_append]
  rw [parsePair, hdata, splitCh_append ':' _ _ hpadh.1, splitCh_no_sep ':' _ hpadm.1]
  simp only [List.map, List.headD, List.drop]
  exact Prod.ext hpadh.2 hpadm.2

/-- C1: the spec's non-overlap legality check rejects a proposed
`[10:30,11:30)` against an existing confirmed `[10:00,11:00)` on the same
company and date, accepts the adjacent `[11:00,12:00)`, and does not let the
cancelled copy block — but the client-facing creation path
(`BookingModal.handleSubmit`) persists the overlapping proposal anyway,
because no legality check runs before the insert. -/
theorem creation_path_persists_overlapping_booking :
    nonOverlapOk 1 100 (timeToMinutes "10:30")
      (timeToMinutes (calculateEndTime "10:30" 60)) [bookingTenToEleven] = false ∧
    nonOverlapOk 1 100 (timeToMinutes "11:00")
      (timeToMinutes (calculateEndTime "11:00" 60)) [bookingTenToEleven] = true ∧
    nonOverlapOk 1 100 (timeToMinutes "10:30")
      (timeToMinutes (calculateEndTime "10:30" 60)) [bookingTenToElevenCancelled] = true ∧
    mkBookingInsert 1 1 60 none proposalHalfPastTen 2 0 ∈
      bookingModalSubmit [bookingTenToEleven] 1 1 60 none proposalHalfPastTen 2 0 := by
  decide

/-- C3: submitting two overlapping booking requests for the same company and
date persists both — even when the two `handleSubmit` calls run one after the
other, with no interleaving at all, since neither run performs any conflict
check.  Both rows end up in the store and their intervals intersect. -/
theorem overlapping_requests_both_persisted :
    mkBookingInsert 1 1 60 none requestTenOclock 1 0 ∈
      bookingModalSubmit (bookingModalSubmit [] 1 1 60 none requestTenOclock 1 0)
        1 1 60 none requestHalfPastTen 2 0 ∧
    mkBookingInsert 1 1 60 none requestHalfPastTen 2 0 ∈
      bookingModalSubmit (bookingModalSubmit [] 1 1 60 none requestTenOclock 1 0)
        1 1 60 none requestHalfPastTen 2 0 ∧
    intervalsOverlap
      (timeToMinutes (mkBookingInsert 1 1 60 none requestTenOclock 1 0).start_time)
      (timeToMinutes (mkBookingInsert 1 1 60 none requestTenOclock 1 0).end_time)
      (timeToMinutes (mkBookingInsert 1 1 60 none requestHalfPastTen 2 0).start_time)
      (timeToMinutes (mkBookingInsert 1 1 60 none requestHalfPastTen 2 0).end_time) = true ∧
    (bookingModalSubmit (bookingModalSubmit [] 1 1 60 none requestTenOclock 1 0)
        1 1 60 none requestHalfPastTen 2 0).length = 2 := by
  decide

/-- C6: every booking created through the client booking request is built with
status `pending` and appended as-is, so each persisted row is either a
pre-existing one or has status `pending`. -/
theorem booking_creation_starts_pending :
    ∀ (store : List Booking) (cid sid dur : Nat) (cuid : Option Nat)
      (form : BookingForm) (nid ts : Nat),
      (mkBookingInsert cid sid dur cuid form nid ts).status = BookingStatus.pending ∧
      bookingModalSubmit store cid sid dur cuid form nid ts
        = store ++ [mkBookingInsert cid sid dur cuid form nid ts] ∧
      ∀ b ∈ bookingModalSubmit store cid sid dur cuid form nid ts,
        b ∈ store ∨ b.status = BookingStatus.pending := by
  intro store cid sid dur cuid form nid ts
  refine ⟨rfl, rfl, ?_⟩
  intro b hb
  rcases List.mem_append.1 hb with h | h
  · exact Or.inl h
  · right
    have hb' : b = mkBookingInsert cid sid dur cuid form nid ts := by simpa using h
    rw [hb']
    rfl

/-- Witness for C6 at a concrete store, form and booking. -/
theorem booking_creation_starts_pending_witness :
    mkBookingInsert 1 1 60 none proposalHalfPastTen 2 0 ∈ [bookingTenToEleven] ∨
      (mkBookingInsert 1 1 60 none proposalHalfPastTen 2 0).status = BookingStatus.pending :=
  (booking_creation_starts_pending [bookingTenToEleven] 1 1 60 none
    proposalHalfPastTen 2 0).2.2 (mkBookingInsert 1 1 60 none proposalHalfPastTen 2 0)
    (by decide)

/-- C4: for every start time given as hours and minutes and every duration in
minutes, `calculateEndTime` returns the time whose total minutes are
`(hours*60 + minutes + duration) % 1440` (wall-clock addition wrapping at
midnight); in particular `endTime("09:00",60) = "10:00"` and
`endTime("23:30",60) = "00:30"`. -/
theorem calculateEndTime_mod_1440 :
    (∀ h m d : Nat, h < 24 → m < 60 →
      timeToMinutes (calculateEndTime (formatTime h m) d) = (h * 60 + m + d) % 1440) ∧
    calculateEndTime "09:00" 60 = "10:00" ∧
    calculateEndTime "23:30" 60 = "00:30" := by
  refine ⟨?_, by decide, by decide⟩
  intro h m d hh hm
  have hp : parsePair (formatTime h m) = (h, m) :=
    parsePair_formatTime h m (by omega) (by omega)
  have hcalc : calculateEndTime (formatTime h m) d
      = formatTime ((h * 60 + m + d) / 60 % 24) ((h * 60 + m + d) % 60) := by
    simp only [formatTime] at hp
    simp only [calculateEndTime, formatTime, hp]
  rw [hcalc, timeToMinutes,
    parsePair_formatTime _ _ (by omega) (by omega)]
  omega

/-- Witness for C4 at the documented midnight-wrap edge case. -/
theorem calculateEndTime_mod_1440_witness :
    timeToMinutes (calculateEndTime (formatTime 23 30) 60) = (23 * 60 + 30 + 60) % 1440 :=
  calculateEndTime_mod_1440.1 23 30 60 (by decide) (by decide)

/-- C5: the status step relation permits exactly pending → confirmed,
pending → cancelled, confirmed → completed and confirmed → cancelled;
cancelled and completed offer no transition in any context, and no sequence
of offered owner updates ever leaves a terminal state. -/
theorem booking_status_machine :
    (∀ s t : BookingStatus, statusStep s t = true ↔
      ((s = BookingStatus.pending ∧ t = BookingStatus.confirmed) ∨
       (s = BookingStatus.pending ∧ t = BookingStatus.cancelled) ∨
       (s = BookingStatus.confirmed ∧ t = BookingStatus.completed) ∨
       (s = BookingStatus.confirmed ∧ t = BookingStatus.cancelled))) ∧
    (∀ p, offeredStatusUpdates BookingStatus.cancelled p = [] ∧
          offeredStatusUpdates BookingStatus.completed p = []) ∧
    (∀ (l : List (BookingStatus × Bool)) (s : BookingStatus),
      s = BookingStatus.cancelled ∨ s = BookingStatus.completed →
      runOfferedUpdates s l = s) := by
  refine ⟨fun s t => by cases s <;> cases t <;> decide,
    fun p => by cases p <;> exact ⟨rfl, rfl⟩, ?_⟩
  intro l
  induction l with
  | nil => intro s _; rfl
  | cons hd tl ih =>
    intro s hs
    obtain ⟨t, p⟩ := hd
    have hoff : offeredStatusUpdates s p = [] := by
      rcases hs with h | h <;> rw [h] <;> rfl
    rw [runOfferedUpdates, hoff]
    simpa using ih s hs

/-- Witness for C5: a terminal state survives a concrete update sequence. -/
theorem booking_status_machine_witness :
    runOfferedUpdates BookingStatus.completed
      [(BookingStatus.confirmed, true), (BookingStatus.cancelled, false)]
      = BookingStatus.completed :=
  booking_status_machine.2.2
    [(BookingStatus.confirmed, true), (BookingStatus.cancelled, false)]
    BookingStatus.completed (Or.inr rfl)

/-- C9: `updateBookingStatus` is row- and field-local: every row with a
different id is returned unchanged, and a row with the matching id changes
only `status` and `updated_at` — all its other fields are preserved. -/
theorem updateBookingStatus_frame :
    ∀ (bookings : List Booking) (id : Nat) (status : BookingStatus) (now : Nat),
      List.Forall₂
        (fun b b' =>
          (b.id ≠ id → b' = b) ∧
          (b.id = id →
            b'.id = b.id ∧ b'.company_id = b.company_id ∧
            b'.service_id = b.service_id ∧ b'.client_user_id = b.client_user_id ∧
            b'.client_name = b.client_name ∧ b'.client_email = b.client_email ∧
            b'.client_phone = b.client_phone ∧ b'.booking_date = b.booking_date ∧
            b'.start_time = b.start_time ∧ b'.end_time = b.end_time ∧
            b'.notes = b.notes ∧ b'.created_at = b.created_at ∧
            b'.status = status ∧ b'.updated_at = now))
        bookings (updateBookingStatus bookings id status now) := by
  intro bookings id status now
  induction bookings with
  | nil => exact List.Forall₂.nil
  | cons hd tl ih =>
    refine List.Forall₂.cons ?_ ih
    by_cases h : hd.id = id
    · constructor
      · intro hne; exact absurd h hne
      · intro _
        simp [updateBookingStatus, h]
    · constructor
      · intro _
        simp [updateBookingStatus, h]
      · intro heq; exact absurd heq h

/-- Witness for C9 on a concrete one-element store. -/
theorem updateBookingStatus_frame_witness :
    List.Forall₂
      (fun b b' =>
        (b.id ≠ 1 → b' = b) ∧
        (b.id = 1 →
          b'.id = b.id ∧ b'.company_id = b.company_id ∧
          b'.service_id = b.service_id ∧ b'.client_user_id = b.client_user_id ∧
          b'.client_name = b.client_name ∧ b'.client_email = b.client_email ∧
          b'.client_phone = b.client_phone ∧ b'.booking_date = b.booking_date ∧
          b'.start_time = b.start_time ∧ b'.end_time = b.end_time ∧
          b'.notes = b.notes ∧ b'.created_at = b.created_at ∧
          b'.status = BookingStatus.confirmed ∧ b'.updated_at = 7))
      [bookingTenToEleven]
      (updateBookingStatus [bookingTenToEleven] 1 BookingStatus.confirmed 7) :=
  updateBookingStatus_frame [bookingTenToEleven] 1 BookingStatus.confirmed 7

/-- C10: the per-status counts partition the loaded list — the four status
counters sum to the total count. -/
theorem statusCounts_partition :
    ∀ bookings : List Booking,
      (statusCounts bookings).pending + (statusCounts bookings).confirmed +
        (statusCounts bookings).cancelled + (statusCounts bookings).completed
      = (statusCounts bookings).all := by
  intro bookings
  induction bookings with
  | nil => rfl
  | cons hd tl ih =>
    simp only [statusCounts, List.filter_cons, List.length_cons] at ih ⊢
    cases hstat : hd.status <;> simp [hstat] <;> omega

/-- C2: when an exception exists for the date, `openIntervalsFor` ignores the
weekly rule entirely: closed exceptions yield no open interval, non-closed
ones yield exactly their own interval, and the result does not depend on the
weekly rules at all. -/
theorem openIntervalsFor_exception_overrides :
    ∀ (rules : List ScheduleRow) (excs : List ScheduleExceptionRow)
      (cid date : Nat) (e : ScheduleExceptionRow),
      excs.find? (fun x => x.company_id == cid && x.date == date) = some e →
      (e.is_closed = true → openIntervalsFor rules excs cid date = []) ∧
      (e.is_closed = false → ∀ s t, e.start_time = some s → e.end_time = some t →
        openIntervalsFor rules excs cid date = [(s, t)]) ∧
      (∀ rules' : List ScheduleRow,
        openIntervalsFor rules excs cid date = openIntervalsFor rules' excs cid date) := by
  intro rules excs cid date e hfind
  refine ⟨?_, ?_, ?_⟩
  · intro hclosed
    simp [openIntervalsFor, hfind, hclosed]
  · intro hopen s t hs ht
    simp [openIntervalsFor, hfind, hopen, hs, ht]
  · intro rules'
    simp [openIntervalsFor, hfind]

/-- Witness for C2: a closed exception inserted by the exception form empties
the day even though an active weekly rule covers it. -/
theorem openIntervalsFor_exception_overrides_witness :
    openIntervalsFor
      [{ id := 1, company_id := 1, day_of_week := 2, start_time := "09:00"
         end_time := "17:00", is_active := true }]
      [mkExceptionInsert 1 9 100 true "09:00" "17:00" "holiday"] 1 100 = [] :=
  (openIntervalsFor_exception_overrides
    [{ id := 1, company_id := 1, day_of_week := 2, start_time := "09:00"
       end_time := "17:00", is_active := true }]
    [mkExceptionInsert 1 9 100 true "09:00" "17:00" "holiday"] 1 100
    (mkExceptionInsert 1 9 100 true "09:00" "17:00" "holiday") (by decide)).1 rfl

/-- C7: `handleScheduleUpdate` preserves at-most-one-rule-per-day — it only
inserts when no rule for the day exists, and otherwise rewrites the existing
row in place, leaving the day set and the row count unchanged. -/
theorem handleScheduleUpdate_unique_days :
    ∀ (schedules : List ScheduleRow) (cid nid day : Nat) (st et : String) (act : Bool),
      atMostOneRulePerDay schedules →
      atMostOneRulePerDay (handleScheduleUpdate schedules cid nid day st et act) ∧
      (schedules.find? (fun s => s.day_of_week == day) = none →
        handleScheduleUpdate schedules cid nid day st et act
          = schedules ++ [{ id := nid, company_id := cid, day_of_week := day
                            start_time := st, end_time := et, is_active := act }]) ∧
      (∀ existing, schedules.find? (fun s => s.day_of_week == day) = some existing →
        (handleScheduleUpdate schedules cid nid day st et act).map
            (fun s => (s.company_id, s.day_of_week))
          = schedules.map (fun s => (s.company_id, s.day_of_week)) ∧
        (handleScheduleUpdate schedules cid nid day st et act).length
          = schedules.length) := by
  intro schedules cid nid day st et act hinv
  refine ⟨?_, ?_, ?_⟩
  · cases hfind : schedules.find? (fun s => s.day_of_week == day) with
    | some existing =>
      simp only [handleScheduleUpdate, hfind]
      have hmap : ∀ a b : ScheduleRow,
          ¬(a.company_id = b.company_id ∧ a.day_of_week = b.day_of_week) →
          ¬((if a.id == existing.id then
              { a with start_time := st, end_time := et, is_active := act } else a).company_id
             = (if b.id == existing.id then
              { b with start_time := st, end_time := et, is_active := act } else b).company_id ∧
            (if a.id == existing.id then
              { a with start_time := st, end_time := et, is_active := act } else a).day_of_week
             = (if b.id == existing.id then
              { b with start_time := st, end_time := et, is_active := act } else b).day_of_week) := by
        intro a b hab
        by_cases ha : a.id == existing.id <;> by_cases hb : b.id == existing.id <;>
          simp [ha, hb] <;> exact fun h1 h2 => hab ⟨h1, h2⟩
      exact hinv.map _ hmap
    | none =>
      simp only [handleScheduleUpdate, hfind]
      have hnone : ∀ r ∈ schedules, ¬(r.day_of_week == day) = true := by
        intro r hr
        exact List.find?_eq_none.1 hfind r hr
      unfold atMostOneRulePerDay
      rw [List.pairwise_append]
      refine ⟨hinv, List.pairwise_singleton _ _, ?_⟩
      intro a ha b hb
      have hb' : b = { id := nid, company_id := cid, day_of_week := day
                       start_time := st, end_time := et, is_active := act } := by
        simpa using hb
      intro hcontra
      apply hnone a ha
      rw [hb'] at hcontra
      simp [hcontra.2]
  · intro hfind
    unfold handleScheduleUpdate
    rw [hfind]
  · intro existing hfind
    unfold handleScheduleUpdate
    rw [hfind]
    constructor
    · rw [List.map_map]
      apply List.map_congr_left
      intro a _
      by_cases ha : a.id = existing.id <;> simp [ha]
    · simp

/-- Witness for C7: updating an already-scheduled day keeps a one-rule-per-day
template valid. -/
theorem handleScheduleUpdate_unique_days_witness :
    atMostOneRulePerDay (handleScheduleUpdate
      [{ id := 1, company_id := 1, day_of_week := 2, start_time := "09:00"
         end_time := "17:00", is_active := true }]
      1 5 2 "08:00" "16:00" true) :=
  (handleScheduleUpdate_unique_days
    [{ id := 1, company_id := 1, day_of_week := 2, start_time := "09:00"
       end_time := "17:00", is_active := true }]
    1 5 2 "08:00" "16:00" true (List.pairwise_singleton _ _)).1

/-- C8: `searchCompanies` returns exactly the active companies matching the
text (empty text matches all, else case-insensitive substring on name,
description, category or some tag), the tag filter (empty or non-empty
intersection with the company's tags) and the city filter (empty or
case-insensitive substring), ordered most-recently-created first. -/
theorem searchCompanies_spec :
    ∀ (companies : List Company) (q : String) (tags : List String) (city : String),
      (∀ c, c ∈ searchCompanies companies q tags city ↔
        (c ∈ companies ∧ c.is_active = true ∧
          (q = "" ∨ ciContains c.name q = true ∨ ciContains c.description q = true ∨
            ciContains c.category q = true ∨ ∃ tag ∈ c.tags, ciContains tag q = true) ∧
          (tags = [] ∨ ∃ tag ∈ c.tags, tag ∈ tags) ∧
          (city = "" ∨ ciContains c.city city = true))) ∧
      (searchCompanies companies q tags city).Pairwise
        (fun a b => b.created_at ≤ a.created_at) := by
  intro companies q tags city
  constructor
  · intro c
    rw [searchCompanies, List.mem_mergeSort, List.mem_filter]
    simp [matchesSearch, List.any_eq_true, List.length_eq_zero,
      and_assoc, or_assoc, Bool.or_eq_true, Bool.and_eq_true]
  · have hsorted := @List.sorted_mergeSort Company
      (fun a b : Company => decide (b.created_at ≤ a.created_at))
      (fun a b c hab hbc => by
        simp only [decide_eq_true_eq] at hab hbc ⊢
        omega)
      (fun a b => by
        rcases Nat.le_total b.created_at a.created_at with h | h <;> simp [h])
      (companies.filter (matchesSearch q tags city))
    exact hsorted.imp fun h => by simpa using h

/-- Witness for C8: the ordering conjunct applied to a concrete store. -/
theorem searchCompanies_spec_witness :
    (searchCompanies
      [{ id := 1, owner_id := 1, name := "Glow Salon", description := "hair"
         contact_email := "", contact_phone := "", logo_url := "", address := ""
         city := "Warsaw", category := "Beauty", tags := ["hair"]
         is_active := true, created_at := 5, updated_at := 5 }]
      "glow" [] "war").Pairwise (fun a b => b.created_at ≤ a.created_at) :=
  (searchCompanies_spec
    [{ id := 1, owner_id := 1, name := "Glow Salon", description := "hair"
       contact_email := "", contact_phone := "", logo_url := "", address := ""
       city := "Warsaw", category := "Beauty", tags := ["hair"]
       is_active := true, created_at := 5, updated_at := 5 }]
    "glow" [] "war").2

end BookingPlatform
